import Mathlib

/-!
Verification development for a quadratic Julia-set renderer
(source: `src/generate.rs` and `src/main.rs`).

Embedding conventions:
* `f64` / `f32` arithmetic is modelled over `ℚ` at two levels.  The
  exact-arithmetic idealization evaluates each formula in `ℚ` with no
  rounding; all concrete inputs appearing in its witnesses and
  counterexamples are small dyadic rationals on which the source's
  floating-point operations are exact, so the idealization agrees with
  the program there.  Where a claim is about precision itself (C2), a
  precision-faithful model is used instead: `fpRound p` is IEEE-754
  round-to-nearest, ties-to-even at significand width `p` (24 for `f32`,
  53 for `f64`, normal range), applied to the exact result of every
  floating-point operation and cast, which is exactly the IEEE semantics
  of Rust's `f32`/`f64` arithmetic away from overflow and subnormals.
* `u8` / `u16` values are modelled as `ℕ`; saturating `u8` multiplication
  (`saturating_mul`) becomes `min (a * b) 255`.
* `render_c` compares Euclidean length against radii `0.03` / `0.04`;
  since both sides are nonnegative, `len < r ↔ len² < r²`, and the model
  compares squared distances to stay inside `ℚ`.
* The `rayon` row fan-out in `render_julia` collects rows back in row-index
  order (`collect` on an indexed parallel iterator is ordered), so the
  raster is modelled as an ordered map over row indices.
-/

/-- RGB pixel, one natural number per 8-bit channel. -/
abbrev Rgb : Type := ℕ × ℕ × ℕ

/-- `enum FillStyle { Bright, Black }` from `src/generate.rs`. -/
inductive FillStyle : Type
  | Bright : FillStyle
  | Black : FillStyle
deriving DecidableEq, Repr

/-- `struct RenderOptions` from `src/generate.rs` (field `max_iter : u16`
modelled as `ℕ`, the `f64` fields as `ℚ`). -/
structure RenderOptions : Type where
  width : ℕ
  height : ℕ
  unit_width : ℚ
  max_iter : ℕ
  cx : ℚ
  cy : ℚ
  fill_style : FillStyle
deriving DecidableEq, Repr

/-- Pixel-to-plane mapping of the Frame Renderer, transcribed from
`render_julia` (`src/generate.rs` lines 72-74 and 86-87, `f64` math):
`ppu = width / unit_width`, `sx = (x - width/2) / ppu`,
`sy = (y - height/2) / ppu`. -/
def mapCoordJulia (q : RenderOptions) (x y : ℕ) : ℚ × ℚ :=
  let width : ℚ := (q.width : ℚ)
  let height : ℚ := (q.height : ℚ)
  let ppu : ℚ := width / q.unit_width
  (((x : ℚ) - width / 2) / ppu, ((y : ℚ) - height / 2) / ppu)

/-- Pixel-to-plane mapping of the Overlay Renderer, transcribed from
`render_c` (`src/generate.rs` lines 38-40 and 46-47) in the
exact-arithmetic idealization (the source evaluates this formula in
`f32`; see `mapCoordCF32` for the precision-faithful version):
`ppu = width / unit_width`, `sx = (x - width/2) / ppu`,
`sy = (y - height/2) / ppu`. -/
def mapCoordC (q : RenderOptions) (x y : ℕ) : ℚ × ℚ :=
  let width : ℚ := (q.width : ℚ)
  let height : ℚ := (q.height : ℚ)
  let ppu : ℚ := width / q.unit_width
  (((x : ℚ) - width / 2) / ppu, ((y : ℚ) - height / 2) / ppu)

/-- Round a rational to the nearest integer, ties to even: the tie rule of
IEEE-754 default rounding. -/
def roundHalfEven (x : ℚ) : ℤ :=
  if x - ⌊x⌋ < 1/2 then ⌊x⌋
  else if 1/2 < x - ⌊x⌋ then ⌊x⌋ + 1
  else if ⌊x⌋ % 2 = 0 then ⌊x⌋ else ⌊x⌋ + 1

/-- IEEE-754 round-to-nearest, ties-to-even at significand width `p`, for
values in the normal range: the unique float with `p` significand bits
nearest to `x` (ties to even significand).  Every Rust `f32` (`p = 24`)
and `f64` (`p = 53`) arithmetic operation and cast rounds its exact
result this way. -/
def fpRound (p : ℕ) (x : ℚ) : ℚ :=
  if x = 0 then 0
  else if 0 < x then
    (roundHalfEven (x / 2 ^ (Int.log 2 x - ((p : ℤ) - 1))) : ℚ)
      * 2 ^ (Int.log 2 x - ((p : ℤ) - 1))
  else
    -((roundHalfEven (-x / 2 ^ (Int.log 2 (-x) - ((p : ℤ) - 1))) : ℚ)
      * 2 ^ (Int.log 2 (-x) - ((p : ℤ) - 1)))

/-- Rounding applied by every `f32` operation (24-bit significand). -/
def f32Round (x : ℚ) : ℚ := fpRound 24 x

/-- Rounding applied by every `f64` operation (53-bit significand). -/
def f64Round (x : ℚ) : ℚ := fpRound 53 x

/-- Precision-faithful pixel-to-plane mapping of the Overlay Renderer
(`render_c`, `src/generate.rs` lines 38-40 and 46-47): the `usize` → `f32`
casts of `width`, `height` and the pixel index, the `f64` → `f32` cast
`q.unit_width as f32`, and each `f32` division and subtraction all round
their exact result to 24-bit significand. -/
def mapCoordCF32 (q : RenderOptions) (x y : ℕ) : ℚ × ℚ :=
  let width : ℚ := f32Round (q.width : ℚ)
  let height : ℚ := f32Round (q.height : ℚ)
  let ppu : ℚ := f32Round (width / f32Round q.unit_width)
  (f32Round (f32Round (f32Round (x : ℚ) - f32Round (width / 2)) / ppu),
   f32Round (f32Round (f32Round (y : ℚ) - f32Round (height / 2)) / ppu))

/-- Precision-faithful pixel-to-plane mapping of the Frame Renderer
(`render_julia`, `src/generate.rs` lines 72-74 and 86-87): the same
formula evaluated in `f64`, each cast and operation rounding to 53-bit
significand; `q.unit_width` is itself the stored `f64` and is used
unconverted. -/
def mapCoordJuliaF64 (q : RenderOptions) (x y : ℕ) : ℚ × ℚ :=
  let width : ℚ := f64Round (q.width : ℚ)
  let height : ℚ := f64Round (q.height : ℚ)
  let ppu : ℚ := f64Round (width / q.unit_width)
  (f64Round (f64Round (f64Round (x : ℚ) - f64Round (width / 2)) / ppu),
   f64Round (f64Round (f64Round (y : ℚ) - f64Round (height / 2)) / ppu))

/-- Options refuting bit-exact agreement of the two mappings:
`unit_width = 3 + 2⁻²³` is exactly representable in `f64` but not in
`f32` (its cast rounds to 3), so `render_c` and `render_julia` divide by
different values. -/
def c2Options : RenderOptions :=
  { width := 512, height := 512, unit_width := 3 + 1/8388608,
    max_iter := 1, cx := 0, cy := 0, fill_style := FillStyle.Bright }

/-- `color_iteration` from `src/generate.rs`:
`let i = iter.min(255) as u8;` then one `saturating_mul` per channel
(`u8` saturation ceiling is 255). -/
def colorIteration (iter : ℕ) (color : Rgb) : Rgb :=
  let i : ℕ := min iter 255
  (min (i * color.1) 255, min (i * color.2.1) 255, min (i * color.2.2) 255)

/-- Loop body of `julia` (`src/generate.rs` lines 109-119): the `while`
loop runs while `x*x + y*y < 4.0 && iter < max_iter`; the fuel argument
counts the remaining iterations allowed by `iter < max_iter`, and the
result is the number of recurrence steps executed. -/
def juliaAux (cx cy : ℚ) : ℚ → ℚ → ℕ → ℕ
  | _, _, 0 => 0
  | x, y, n + 1 =>
    if x * x + y * y < 4 then
      juliaAux cx cy (x * x - y * y + cx) (2 * x * y + cy) n + 1
    else 0

/-- `julia(x, y, cx, cy, max_iter)` from `src/generate.rs`: escape-time
count, starting at `iter = 0`. -/
def julia (x y cx cy : ℚ) (max_iter : ℕ) : ℕ :=
  juliaAux cx cy x y max_iter

/-- One step of the quadratic recurrence from the body of `julia`:
`(x, y) ↦ (x*x - y*y + cx, 2*x*y + cy)`. -/
def juliaStep (cx cy : ℚ) (p : ℚ × ℚ) : ℚ × ℚ :=
  (p.1 * p.1 - p.2 * p.2 + cx, 2 * p.1 * p.2 + cy)

/-- Squared magnitude `x*x + y*y`, the quantity the loop guard of `julia`
compares against `4.0`. -/
def normSq (p : ℚ × ℚ) : ℚ :=
  p.1 * p.1 + p.2 * p.2

/-- Non-escape fill computed once before the pixel loop of `render_julia`
(`src/generate.rs` lines 76-79). -/
def fillColor (q : RenderOptions) (color : Rgb) : Rgb :=
  match q.fill_style with
  | FillStyle.Black => (0, 0, 0)
  | FillStyle.Bright => colorIteration q.max_iter color

/-- Body of the inner pixel loop of `render_julia`
(`src/generate.rs` lines 85-94). -/
def renderPixel (q : RenderOptions) (color : Rgb) (x y : ℕ) : Rgb :=
  let s := mapCoordJulia q x y
  let i := julia s.1 s.2 q.cx q.cy q.max_iter
  if i = q.max_iter then fillColor q color else colorIteration i color

/-- `render_julia` from `src/generate.rs`: the raster as a list of rows in
row-index order (the parallel `collect` gathers rows ordered by `y`). -/
def renderJulia (q : RenderOptions) (color : Rgb) : List (List Rgb) :=
  (List.range q.height).map fun y =>
    (List.range q.width).map fun x => renderPixel q color x y

/-- Pixel lookup in a raster: row `y`, then column `x`. -/
def rasterGet (img : List (List Rgb)) (x y : ℕ) : Option Rgb :=
  (img[y]?).bind fun row => row[x]?

/-- Squared distance from the plane point of pixel `(x, y)` to the marker
centre `(cx, cy)`, from `render_c` (`src/generate.rs` lines 42-49, where
the source takes `(Vec2::new(sx, sy) - target).length()`). -/
def cDistSq (q : RenderOptions) (x y : ℕ) : ℚ :=
  let s := mapCoordC q x y
  (s.1 - q.cx) * (s.1 - q.cx) + (s.2 - q.cy) * (s.2 - q.cy)

/-- `render_c` from `src/generate.rs`: mutate-in-place overlay pass over
the pixel grid, modelled as an update of the raster-as-function.  The
source tests `len < 0.03` and `len < 0.04`; the model tests the squared
distance against `0.0009 = 9/10000` and `0.0016 = 16/10000`. -/
def renderC (q : RenderOptions) (img : ℕ → ℕ → Rgb) : ℕ → ℕ → Rgb :=
  fun x y =>
    if x < q.width ∧ y < q.height then
      if cDistSq q x y < 9 / 10000 then (0, 120, 120)
      else if cDistSq q x y < 16 / 10000 then (255, 255, 255)
      else img x y
    else img x y

/-- `enum RenderJob` from `src/main.rs` (payload types abstracted: path as
a string, colour as an `Rgb` triple). -/
inductive RenderJob : Type
  | Render : String → RenderOptions → Rgb → RenderJob
  | Exit : RenderJob
deriving DecidableEq

/-- Outcome of `job_receiver.recv()` in the worker loop of `JuliaGUI::new`
(`src/main.rs` line 129): either a job, or `Err(RecvError)` after the
sending half was dropped. -/
inductive RecvOutcome : Type
  | ok : RenderJob → RecvOutcome
  | disconnected : RecvOutcome
deriving DecidableEq

/-- How one pass through the worker's `loop` body ends: fall through to the
next `recv` (`continueLoop`), `break` out of the loop (`exitLoop`), or die
in an `unwrap` (`crashed`). -/
inductive LoopOutcome : Type
  | continueLoop : LoopOutcome
  | exitLoop : LoopOutcome
  | crashed : LoopOutcome
deriving DecidableEq, Repr

/-- Observable effects of one pass through the worker's loop body. -/
structure WorkerStepResult : Type where
  outcome : LoopOutcome
  loggedSaveFailure : Bool
  sentResult : Bool
deriving DecidableEq, Repr

/-- One pass through the export worker's loop body, transcribed from
`JuliaGUI::new` (`src/main.rs` lines 128-143).  `saveOk` abstracts whether
`image.save(&path)` succeeds; `resultChannelOpen` abstracts whether the
controller still holds the result `Receiver`.
* `recv()` returning `Err`: the `if let Ok(job)` pattern fails, nothing
  runs, and `loop` repeats — the body neither breaks nor crashes.
* `RenderJob::Exit`: `break`.
* `RenderJob::Render`: render, save (printing on save error), then
  `result_sender.send(time).unwrap()`, which panics when the result
  channel is disconnected. -/
def workerStep (saveOk resultChannelOpen : Bool) : RecvOutcome → WorkerStepResult
  | RecvOutcome.disconnected =>
    { outcome := LoopOutcome.continueLoop, loggedSaveFailure := false, sentResult := false }
  | RecvOutcome.ok RenderJob.Exit =>
    { outcome := LoopOutcome.exitLoop, loggedSaveFailure := false, sentResult := false }
  | RecvOutcome.ok (RenderJob.Render _ _ _) =>
    if resultChannelOpen then
      { outcome := LoopOutcome.continueLoop, loggedSaveFailure := !saveOk, sentResult := true }
    else
      { outcome := LoopOutcome.crashed, loggedSaveFailure := !saveOk, sentResult := false }

/-- Total recurrence steps executed by `render_julia` across the raster:
the sum over all pixels of the iteration count of `julia`. -/
def totalInnerSteps (q : RenderOptions) : ℕ :=
  ((List.range q.height).map fun y =>
    ((List.range q.width).map fun x =>
      julia (mapCoordJulia q x y).1 (mapCoordJulia q x y).2 q.cx q.cy q.max_iter).sum).sum

/-- The concrete options of spec scenario 1:
`width=4, height=4, unit_width=4.0, max_iterations=1, cx=0, cy=0`. -/
def scenario1 (fs : FillStyle) : RenderOptions :=
  { width := 4, height := 4, unit_width := 4, max_iter := 1,
    cx := 0, cy := 0, fill_style := fs }

/-- Int.log base 2 of a positive rational is determined by a bracketing
pair of powers of two. -/
theorem log2_eq_of (x : ℚ) (L : ℤ) (hx : 0 < x)
    (h1 : (2:ℚ)^L ≤ x) (h2 : x < (2:ℚ)^(L+1)) : Int.log 2 x = L := by
  have hb : 1 < (2:ℕ) := by norm_num
  have hlo : L ≤ Int.log 2 x := by
    rw [← Int.zpow_le_iff_le_log hb hx]; exact_mod_cast h1
  have hhi : Int.log 2 x < L + 1 := by
    rw [← Int.lt_zpow_iff_log_lt hb hx]; exact_mod_cast h2
  omega

/-- roundHalfEven below the midpoint rounds down. -/
theorem roundHalfEven_of_lt (x : ℚ) (n : ℤ) (h1 : (n:ℚ) ≤ x) (h2 : x < (n:ℚ) + 1/2) :
    roundHalfEven x = n := by
  have hf : ⌊x⌋ = n := Int.floor_eq_iff.mpr ⟨h1, by linarith⟩
  unfold roundHalfEven
  rw [hf, if_pos (by linarith : x - (n:ℚ) < 1/2)]

/-- roundHalfEven above the midpoint rounds up. -/
theorem roundHalfEven_of_gt (x : ℚ) (n m : ℤ) (h1 : (n:ℚ) + 1/2 < x)
    (h2 : x < (n:ℚ) + 1) (hm : n + 1 = m) : roundHalfEven x = m := by
  have hf : ⌊x⌋ = n := Int.floor_eq_iff.mpr ⟨by linarith, by linarith⟩
  unfold roundHalfEven
  rw [hf, if_neg (by linarith : ¬ x - (n:ℚ) < 1/2),
    if_pos (by linarith : (1:ℚ)/2 < x - (n:ℚ)), hm]

/-- roundHalfEven at the midpoint keeps an even neighbour. -/
theorem roundHalfEven_of_tie_even (x : ℚ) (n : ℤ) (hx : x = (n:ℚ) + 1/2)
    (hn : n % 2 = 0) : roundHalfEven x = n := by
  subst hx
  have hf : ⌊(n:ℚ) + 1/2⌋ = n := Int.floor_eq_iff.mpr ⟨by linarith, by linarith⟩
  unfold roundHalfEven
  rw [hf, if_neg (by simp), if_neg (by simp), if_pos hn]

/-- Evaluation rule for one `f32` rounding at a concrete positive input:
supply the binade exponent `L`, the ulp exponent `e = L - 23`, and the
rounded significand `m`. -/
theorem f32Round_eq (x : ℚ) (L e m : ℤ) (r : ℚ) (hx : 0 < x)
    (h1 : (2:ℚ)^L ≤ x) (h2 : x < (2:ℚ)^(L+1))
    (he : L - ((24:ℤ) - 1) = e)
    (hm : roundHalfEven (x / 2 ^ e) = m)
    (hr : (m:ℚ) * 2 ^ e = r) : f32Round x = r := by
  have hlog : Int.log 2 x = L := log2_eq_of x L hx h1 h2
  unfold f32Round fpRound
  rw [if_neg (ne_of_gt hx), if_pos hx, hlog]
  norm_num at he ⊢
  rw [he, hm, hr]

/-- Evaluation rule for one `f64` rounding at a concrete positive input:
supply the binade exponent `L`, the ulp exponent `e = L - 52`, and the
rounded significand `m`. -/
theorem f64Round_eq (x : ℚ) (L e m : ℤ) (r : ℚ) (hx : 0 < x)
    (h1 : (2:ℚ)^L ≤ x) (h2 : x < (2:ℚ)^(L+1))
    (he : L - ((53:ℤ) - 1) = e)
    (hm : roundHalfEven (x / 2 ^ e) = m)
    (hr : (m:ℚ) * 2 ^ e = r) : f64Round x = r := by
  have hlog : Int.log 2 x = L := log2_eq_of x L hx h1 h2
  unfold f64Round fpRound
  rw [if_neg (ne_of_gt hx), if_pos hx, hlog]
  norm_num at he ⊢
  rw [he, hm, hr]

/-- C2 counterexample: under the precision-faithful models of the two
mappings, the options `width = height = 512`, `unit_width = 3 + 2⁻²³` at
pixel `(384, 384)` map to different plane points: `render_c`'s `f32`
evaluation gives `(3/4, 3/4)` (the `f32` cast of `unit_width` rounds to
3, a tie broken to even), while `render_julia`'s `f64` evaluation gives
`(25165825/2²⁵, 25165825/2²⁵)` ≈ `0.75000003`.  So the Overlay Renderer
does not map every pixel to exactly the same plane point as the Frame
Renderer, refuting the claim as stated. -/
theorem C2_float_mapping_counterexample :
    mapCoordCF32 c2Options 384 384 ≠ mapCoordJuliaF64 c2Options 384 384 := by
  have w32 : f32Round (512:ℚ) = 512 :=
    f32Round_eq _ 9 (-14) 8388608 512 (by norm_num) (by norm_num) (by norm_num) (by decide)
      (roundHalfEven_of_lt _ 8388608 (by norm_num) (by norm_num)) (by norm_num)
  have x32 : f32Round (384:ℚ) = 384 :=
    f32Round_eq _ 8 (-15) 12582912 384 (by norm_num) (by norm_num) (by norm_num) (by decide)
      (roundHalfEven_of_lt _ 12582912 (by norm_num) (by norm_num)) (by norm_num)
  have u32 : f32Round ((3:ℚ) + 1/8388608) = 3 :=
    f32Round_eq _ 1 (-22) 12582912 3 (by norm_num) (by norm_num) (by norm_num) (by decide)
      (roundHalfEven_of_tie_even _ 12582912 (by norm_num) (by decide)) (by norm_num)
  have p32 : f32Round ((512:ℚ) / 3) = 11184811/65536 :=
    f32Round_eq _ 7 (-16) 11184811 (11184811/65536) (by norm_num) (by norm_num) (by norm_num)
      (by decide) (roundHalfEven_of_gt _ 11184810 11184811 (by norm_num) (by norm_num) (by decide))
      (by norm_num)
  have h32 : f32Round ((512:ℚ) / 2) = 256 :=
    f32Round_eq _ 8 (-15) 8388608 256 (by norm_num) (by norm_num) (by norm_num) (by decide)
      (roundHalfEven_of_lt _ 8388608 (by norm_num) (by norm_num)) (by norm_num)
  have s32 : f32Round ((384:ℚ) - 256) = 128 :=
    f32Round_eq _ 7 (-16) 8388608 128 (by norm_num) (by norm_num) (by norm_num) (by decide)
      (roundHalfEven_of_lt _ 8388608 (by norm_num) (by norm_num)) (by norm_num)
  have d32 : f32Round ((128:ℚ) / (11184811/65536)) = 3/4 :=
    f32Round_eq _ (-1) (-24) 12582912 (3/4) (by norm_num) (by norm_num) (by norm_num) (by decide)
      (roundHalfEven_of_gt _ 12582911 12582912 (by norm_num) (by norm_num) (by decide))
      (by norm_num)
  have w64 : f64Round (512:ℚ) = 512 :=
    f64Round_eq _ 9 (-43) 4503599627370496 512 (by norm_num) (by norm_num) (by norm_num)
      (by decide) (roundHalfEven_of_lt _ 4503599627370496 (by norm_num) (by norm_num))
      (by norm_num)
  have x64 : f64Round (384:ℚ) = 384 :=
    f64Round_eq _ 8 (-44) 6755399441055744 384 (by norm_num) (by norm_num) (by norm_num)
      (by decide) (roundHalfEven_of_lt _ 6755399441055744 (by norm_num) (by norm_num))
      (by norm_num)
  have p64 : f64Round ((512:ℚ) / (3 + 1/8388608)) = 6004799264551377/35184372088832 :=
    f64Round_eq _ 7 (-45) 6004799264551377 (6004799264551377/35184372088832) (by norm_num)
      (by norm_num) (by norm_num) (by decide)
      (roundHalfEven_of_gt _ 6004799264551376 6004799264551377 (by norm_num) (by norm_num)
        (by decide))
      (by norm_num)
  have h64 : f64Round ((512:ℚ) / 2) = 256 :=
    f64Round_eq _ 8 (-44) 4503599627370496 256 (by norm_num) (by norm_num) (by norm_num)
      (by decide) (roundHalfEven_of_lt _ 4503599627370496 (by norm_num) (by norm_num))
      (by norm_num)
  have s64 : f64Round ((384:ℚ) - 256) = 128 :=
    f64Round_eq _ 7 (-45) 4503599627370496 128 (by norm_num) (by norm_num) (by norm_num)
      (by decide) (roundHalfEven_of_lt _ 4503599627370496 (by norm_num) (by norm_num))
      (by norm_num)
  have d64 : f64Round ((128:ℚ) / (6004799264551377/35184372088832)) = 25165825/33554432 :=
    f64Round_eq _ (-1) (-53) 6755399709491200 (25165825/33554432) (by norm_num) (by norm_num)
      (by norm_num) (by decide)
      (roundHalfEven_of_gt _ 6755399709491199 6755399709491200 (by norm_num) (by norm_num)
        (by decide))
      (by norm_num)
  simp only [mapCoordCF32, mapCoordJuliaF64, c2Options, Nat.cast_ofNat]
  rw [w32, u32, p32, x32, h32, s32, d32, w64, p64, x64, h64, s64, d64]
  norm_num

/-- C2 (amended): the Overlay Renderer evaluates the same coordinate
formula as the Frame Renderer — `sx = (x - width/2) / (width/unit_width)`,
`sy = (y - height/2) / (width/unit_width)` — so in exact arithmetic the
two mappings are identical functions, and the marker is aligned up to
`f32` rounding error.  They are not bit-for-bit equal: `render_c`
evaluates the formula in `f32` (including an `f64` → `f32` cast of
`unit_width`) while `render_julia` uses `f64`, and the precision-faithful
models differ at concrete options (see the counterexample). -/
theorem C2_coord_mapping_equal (q : RenderOptions) (x y : ℕ) :
    mapCoordC q x y = mapCoordJulia q x y := rfl

/-- C6: for every iteration count and colour triple, the Colour Mapper
emits `min(i,255) * channel` per channel, clamped (saturating) at 255, so
no channel ever exceeds 255. -/
theorem C6_color_mapper_saturates (iter : ℕ) (c : Rgb) :
    colorIteration iter c =
      (min (min iter 255 * c.1) 255,
       min (min iter 255 * c.2.1) 255,
       min (min iter 255 * c.2.2) 255) ∧
    (colorIteration iter c).1 ≤ 255 ∧
    (colorIteration iter c).2.1 ≤ 255 ∧
    (colorIteration iter c).2.2 ≤ 255 := by
  refine ⟨rfl, ?_, ?_, ?_⟩ <;> exact min_le_right _ _

/-- C10: every iteration count of 255 or more produces the same colour as
255 itself: the Colour Mapper cannot distinguish escape counts ≥ 255. -/
theorem C10_color_clamped_above_255 (iter : ℕ) (h : 255 ≤ iter) (c : Rgb) :
    colorIteration iter c = colorIteration 255 c := by
  unfold colorIteration
  rw [min_eq_right h, min_self]

theorem C10_color_clamped_above_255_witness :
    255 ≤ 300 ∧ colorIteration 300 (2, 3, 4) = colorIteration 255 (2, 3, 4) :=
  ⟨by decide, C10_color_clamped_above_255 300 (by decide) (2, 3, 4)⟩

/-- The loop of `julia` executes at most as many recurrence steps as the
remaining fuel allows. -/
theorem juliaAux_le (cx cy : ℚ) : ∀ (n : ℕ) (x y : ℚ), juliaAux cx cy x y n ≤ n := by
  intro n
  induction n with
  | zero => intro x y; simp [juliaAux]
  | succ n ih =>
    intro x y
    unfold juliaAux
    split
    · exact Nat.succ_le_succ (ih _ _)
    · exact Nat.zero_le _

/-- If the orbit stays strictly inside the escape bound at each of the
first `n` checks, the loop of `julia` runs all `n` allowed steps. -/
theorem juliaAux_of_bounded (cx cy : ℚ) :
    ∀ (n : ℕ) (x y : ℚ),
      (∀ k, k < n → normSq ((juliaStep cx cy)^[k] (x, y)) < 4) →
      juliaAux cx cy x y n = n := by
  intro n
  induction n with
  | zero => intro x y _; rfl
  | succ n ih =>
    intro x y h
    have h0 : x * x + y * y < 4 := by
      have := h 0 (Nat.succ_pos n)
      simpa [normSq] using this
    have hrest : ∀ k, k < n →
        normSq ((juliaStep cx cy)^[k] (juliaStep cx cy (x, y))) < 4 := by
      intro k hk
      have := h (k + 1) (Nat.succ_lt_succ hk)
      simpa [Function.iterate_succ_apply] using this
    have hstep : juliaAux cx cy (x * x - y * y + cx) (2 * x * y + cy) n = n := by
      have := ih (x * x - y * y + cx) (2 * x * y + cy) (by
        intro k hk
        simpa [juliaStep] using hrest k hk)
      exact this
    unfold juliaAux
    rw [if_pos h0, hstep]

/-- C4: whenever the recurrence stays bounded (`x*x + y*y < 4` at every
check) for all `max_iterations` steps, the Escape-Time Evaluator returns
exactly `max_iterations`; `render_julia` classifies a pixel as non-escaping
precisely when the returned count equals `max_iter`, so this is the
non-escape verdict. -/
theorem C4_bounded_returns_max_iter (x y cx cy : ℚ) (m : ℕ) (_hm : 1 ≤ m)
    (h : ∀ k, k < m → normSq ((juliaStep cx cy)^[k] (x, y)) < 4) :
    julia x y cx cy m = m :=
  juliaAux_of_bounded cx cy m x y h

theorem C4_bounded_returns_max_iter_witness :
    (1 ≤ 1 ∧ ∀ k, k < 1 → normSq ((juliaStep 0 0)^[k] ((0 : ℚ), (0 : ℚ))) < 4) ∧
      julia 0 0 0 0 1 = 1 := by
  have hb : ∀ k, k < 1 → normSq ((juliaStep 0 0)^[k] ((0 : ℚ), (0 : ℚ))) < 4 := by
    intro k hk
    interval_cases k
    norm_num [normSq]
  exact ⟨⟨le_refl 1, hb⟩, C4_bounded_returns_max_iter 0 0 0 0 1 (le_refl 1) hb⟩

/-- C9: the Escape-Time Evaluator performs at most `max_iterations` steps
and returns a count bounded by it, and the Frame Renderer's total
inner-loop step count across the whole raster is at most
`width * height * max_iterations`. -/
theorem C9_renderer_step_bound :
    (∀ (x y cx cy : ℚ) (m : ℕ), julia x y cx cy m ≤ m) ∧
    ∀ q : RenderOptions, totalInnerSteps q ≤ q.width * q.height * q.max_iter := by
  constructor
  · intro x y cx cy m
    exact juliaAux_le cx cy m x y
  · intro q
    have hrow : ∀ y : ℕ,
        ((List.range q.width).map fun x =>
          julia (mapCoordJulia q x y).1 (mapCoordJulia q x y).2 q.cx q.cy q.max_iter).sum
          ≤ q.width * q.max_iter := by
      intro y
      have h := List.sum_le_card_nsmul
        ((List.range q.width).map fun x =>
          julia (mapCoordJulia q x y).1 (mapCoordJulia q x y).2 q.cx q.cy q.max_iter)
        q.max_iter (by
          intro v hv
          simp only [List.mem_map, List.mem_range] at hv
          obtain ⟨x, _, rfl⟩ := hv
          exact juliaAux_le q.cx q.cy q.max_iter _ _)
      simpa [smul_eq_mul] using h
    have houter := List.sum_le_card_nsmul
      ((List.range q.height).map fun y =>
        ((List.range q.width).map fun x =>
          julia (mapCoordJulia q x y).1 (mapCoordJulia q x y).2 q.cx q.cy q.max_iter).sum)
      (q.width * q.max_iter) (by
        intro v hv
        simp only [List.mem_map, List.mem_range] at hv
        obtain ⟨y, _, rfl⟩ := hv
        exact hrow y)
    have : totalInnerSteps q ≤ q.height * (q.width * q.max_iter) := by
      simpa [totalInnerSteps, smul_eq_mul] using houter
    calc totalInnerSteps q ≤ q.height * (q.width * q.max_iter) := this
      _ = q.width * q.height * q.max_iter := by ring

/-- C3: the spec requires the worker to exit its receive loop cleanly on
channel disconnection, without spinning or panicking.  The code does the
opposite: when `recv` fails the `if let Ok(job)` pattern falls through and
`loop` immediately retries (a busy spin, never an exit), and when the
result channel is disconnected `result_sender.send(time).unwrap()` panics.
This theorem evaluates the modelled loop body at those failing inputs. -/
theorem C3_disconnect_not_clean_exit (saveOk resultChannelOpen : Bool)
    (p : String) (o : RenderOptions) (c : Rgb) :
    (workerStep saveOk resultChannelOpen RecvOutcome.disconnected).outcome
        = LoopOutcome.continueLoop ∧
    (workerStep saveOk resultChannelOpen RecvOutcome.disconnected).outcome
        ≠ LoopOutcome.exitLoop ∧
    (workerStep saveOk false (RecvOutcome.ok (RenderJob.Render p o c))).outcome
        = LoopOutcome.crashed := by
  refine ⟨rfl, by simp [workerStep], rfl⟩

/-- C8: when persisting the rendered raster fails but the controller is
still connected, the worker logs the failure, still sends the job's timing
result, and continues its loop to the next job. -/
theorem C8_save_failure_recovered (p : String) (o : RenderOptions) (c : Rgb) :
    workerStep false true (RecvOutcome.ok (RenderJob.Render p o c)) =
      { outcome := LoopOutcome.continueLoop,
        loggedSaveFailure := true, sentResult := true } := rfl

/-- Pixel `(x, y)` of the raster produced by `render_julia` is exactly the
value the inner pixel loop pushed for it. -/
theorem rasterGet_renderJulia (q : RenderOptions) (c : Rgb) (x y : ℕ)
    (hx : x < q.width) (hy : y < q.height) :
    rasterGet (renderJulia q c) x y = some (renderPixel q c x y) := by
  simp [rasterGet, renderJulia, List.getElem?_map, List.getElem?_range, hx, hy]

/-- When the Escape-Time Evaluator returns `max_iter`, the pixel loop
pushes the precomputed fill. -/
theorem renderPixel_of_max (q : RenderOptions) (c : Rgb) (x y : ℕ)
    (h : julia (mapCoordJulia q x y).1 (mapCoordJulia q x y).2 q.cx q.cy q.max_iter
      = q.max_iter) :
    renderPixel q c x y = fillColor q c := by
  simp only [renderPixel]
  rw [if_pos h]

/-- C5: every non-escaping pixel of the rendered raster (a pixel whose
iteration count equals `max_iter`) is the fill colour; under
`fill_style = Black` that fill is exactly `(0,0,0)`, and under
`fill_style = Bright` it is the colour the escaping branch
(`color_iteration`) produces for `i = max_iterations`. -/
theorem C5_nonescape_pixel_fill (q : RenderOptions) (c : Rgb) (x y : ℕ)
    (hx : x < q.width) (hy : y < q.height)
    (hni : julia (mapCoordJulia q x y).1 (mapCoordJulia q x y).2 q.cx q.cy q.max_iter
      = q.max_iter) :
    rasterGet (renderJulia q c) x y = some (fillColor q c) ∧
    (q.fill_style = FillStyle.Black → fillColor q c = (0, 0, 0)) ∧
    (q.fill_style = FillStyle.Bright → fillColor q c = colorIteration q.max_iter c) := by
  refine ⟨?_, ?_, ?_⟩
  · rw [rasterGet_renderJulia q c x y hx hy, renderPixel_of_max q c x y hni]
  · intro h; simp [fillColor, h]
  · intro h; simp [fillColor, h]

theorem C5_nonescape_pixel_fill_witness :
    (1 < (scenario1 FillStyle.Black).width ∧ 1 < (scenario1 FillStyle.Black).height ∧
      julia (mapCoordJulia (scenario1 FillStyle.Black) 1 1).1
        (mapCoordJulia (scenario1 FillStyle.Black) 1 1).2
        (scenario1 FillStyle.Black).cx (scenario1 FillStyle.Black).cy
        (scenario1 FillStyle.Black).max_iter = (scenario1 FillStyle.Black).max_iter) ∧
    (rasterGet (renderJulia (scenario1 FillStyle.Black) (2, 3, 4)) 1 1
        = some (fillColor (scenario1 FillStyle.Black) (2, 3, 4)) ∧
      ((scenario1 FillStyle.Black).fill_style = FillStyle.Black →
        fillColor (scenario1 FillStyle.Black) (2, 3, 4) = (0, 0, 0)) ∧
      ((scenario1 FillStyle.Black).fill_style = FillStyle.Bright →
        fillColor (scenario1 FillStyle.Black) (2, 3, 4)
          = colorIteration (scenario1 FillStyle.Black).max_iter (2, 3, 4))) := by
  have h1 : 1 < (scenario1 FillStyle.Black).width := by norm_num [scenario1]
  have h2 : 1 < (scenario1 FillStyle.Black).height := by norm_num [scenario1]
  have h3 : julia (mapCoordJulia (scenario1 FillStyle.Black) 1 1).1
      (mapCoordJulia (scenario1 FillStyle.Black) 1 1).2
      (scenario1 FillStyle.Black).cx (scenario1 FillStyle.Black).cy
      (scenario1 FillStyle.Black).max_iter = (scenario1 FillStyle.Black).max_iter := by
    norm_num [scenario1, mapCoordJulia, julia, juliaAux]
  exact ⟨⟨h1, h2, h3⟩, C5_nonescape_pixel_fill (scenario1 FillStyle.Black) (2, 3, 4) 1 1 h1 h2 h3⟩

/-- C7: the Overlay Renderer leaves every pixel whose mapped plane point is
at squared distance at least `0.04² = 16/10000` from the marker centre
`(cx, cy)` unchanged; only pixels strictly inside the radius thresholds
are written. -/
theorem C7_overlay_outside_untouched (q : RenderOptions) (img : ℕ → ℕ → Rgb) (x y : ℕ)
    (h : 16 / 10000 ≤ cDistSq q x y) :
    renderC q img x y = img x y := by
  unfold renderC
  split_ifs with h1 h2 h3
  · exfalso; linarith
  · exfalso; linarith
  · rfl
  · rfl

theorem C7_overlay_outside_untouched_witness :
    16 / 10000 ≤ cDistSq (scenario1 FillStyle.Bright) 0 0 ∧
    renderC (scenario1 FillStyle.Bright) (fun _ _ => (5, 5, 5)) 0 0
      = (fun _ _ => ((5, 5, 5) : Rgb)) 0 0 := by
  have h : (16 : ℚ) / 10000 ≤ cDistSq (scenario1 FillStyle.Bright) 0 0 := by
    norm_num [cDistSq, mapCoordC, scenario1]
  exact ⟨h, C7_overlay_outside_untouched (scenario1 FillStyle.Bright) (fun _ _ => (5, 5, 5)) 0 0 h⟩

/-- C1 counterexample: in scenario 1 (`width=4, height=4, unit_width=4,
max_iterations=1, cx=cy=0`) pixel `(0,0)` maps to the plane point
`(-2,-2)` with `x²+y² = 8 ≥ 4`, so not every pixel's plane point satisfies
`x²+y² < 4`; that pixel escapes at the first check and renders black, so
under `fill_style = Bright` with colour `(1,1,1)` the raster is not
uniform. -/
theorem C1_scenario1_counterexample :
    ¬ normSq (mapCoordJulia (scenario1 FillStyle.Bright) 0 0) < 4 ∧
    rasterGet (renderJulia (scenario1 FillStyle.Bright) (1, 1, 1)) 0 0 ≠
      rasterGet (renderJulia (scenario1 FillStyle.Bright) (1, 1, 1)) 1 1 := by
  constructor
  · norm_num [normSq, mapCoordJulia, scenario1]
  · have h00 : rasterGet (renderJulia (scenario1 FillStyle.Bright) (1, 1, 1)) 0 0
        = some (renderPixel (scenario1 FillStyle.Bright) (1, 1, 1) 0 0) :=
      rasterGet_renderJulia _ _ 0 0 (by norm_num [scenario1]) (by norm_num [scenario1])
    have h11 : rasterGet (renderJulia (scenario1 FillStyle.Bright) (1, 1, 1)) 1 1
        = some (renderPixel (scenario1 FillStyle.Bright) (1, 1, 1) 1 1) :=
      rasterGet_renderJulia _ _ 1 1 (by norm_num [scenario1]) (by norm_num [scenario1])
    rw [h00, h11]
    norm_num [renderPixel, julia, juliaAux, mapCoordJulia, scenario1, fillColor, colorIteration]

/-- C1 (amended): in scenario 1, pixels of row 0 or column 0 map to plane
points with `x²+y² ≥ 4`, escape at the very first check with iteration
count 0, and render black `(0,0,0)`; every pixel with `x ≥ 1` and `y ≥ 1`
maps to a plane point with `x²+y² < 4`, stays bounded for the single
iteration, and renders the `fill_style`-dependent non-escape colour.  The
raster is therefore uniform only when the fill itself is black. -/
theorem C1_scenario1_amended (fs : FillStyle) (c : Rgb) (x y : ℕ)
    (hx : x < 4) (hy : y < 4) :
    (x = 0 ∨ y = 0 →
      4 ≤ normSq (mapCoordJulia (scenario1 fs) x y) ∧
      julia (mapCoordJulia (scenario1 fs) x y).1 (mapCoordJulia (scenario1 fs) x y).2
        (scenario1 fs).cx (scenario1 fs).cy (scenario1 fs).max_iter = 0 ∧
      rasterGet (renderJulia (scenario1 fs) c) x y = some (0, 0, 0)) ∧
    (x ≠ 0 → y ≠ 0 →
      normSq (mapCoordJulia (scenario1 fs) x y) < 4 ∧
      julia (mapCoordJulia (scenario1 fs) x y).1 (mapCoordJulia (scenario1 fs) x y).2
        (scenario1 fs).cx (scenario1 fs).cy (scenario1 fs).max_iter
        = (scenario1 fs).max_iter ∧
      rasterGet (renderJulia (scenario1 fs) c) x y = some (fillColor (scenario1 fs) c)) := by
  have hget : rasterGet (renderJulia (scenario1 fs) c) x y
      = some (renderPixel (scenario1 fs) c x y) :=
    rasterGet_renderJulia _ _ x y (by simpa [scenario1] using hx) (by simpa [scenario1] using hy)
  rw [hget]
  interval_cases x <;> interval_cases y
  all_goals refine ⟨fun h => ?_, fun h1 h2 => ?_⟩
  all_goals try exact absurd rfl h1
  all_goals try exact absurd rfl h2
  all_goals try (exfalso; revert h; norm_num; done)
  all_goals norm_num [renderPixel, julia, juliaAux, mapCoordJulia, normSq,
    scenario1, fillColor, colorIteration]

theorem C1_scenario1_amended_witness :
    ((1 : ℕ) < 4 ∧ (1 : ℕ) < 4) ∧
    (((1 : ℕ) = 0 ∨ (1 : ℕ) = 0 →
      4 ≤ normSq (mapCoordJulia (scenario1 FillStyle.Bright) 1 1) ∧
      julia (mapCoordJulia (scenario1 FillStyle.Bright) 1 1).1
        (mapCoordJulia (scenario1 FillStyle.Bright) 1 1).2
        (scenario1 FillStyle.Bright).cx (scenario1 FillStyle.Bright).cy
        (scenario1 FillStyle.Bright).max_iter = 0 ∧
      rasterGet (renderJulia (scenario1 FillStyle.Bright) (1, 1, 1)) 1 1
        = some (0, 0, 0)) ∧
    ((1 : ℕ) ≠ 0 → (1 : ℕ) ≠ 0 →
      normSq (mapCoordJulia (scenario1 FillStyle.Bright) 1 1) < 4 ∧
      julia (mapCoordJulia (scenario1 FillStyle.Bright) 1 1).1
        (mapCoordJulia (scenario1 FillStyle.Bright) 1 1).2
        (scenario1 FillStyle.Bright).cx (scenario1 FillStyle.Bright).cy
        (scenario1 FillStyle.Bright).max_iter = (scenario1 FillStyle.Bright).max_iter ∧
      rasterGet (renderJulia (scenario1 FillStyle.Bright) (1, 1, 1)) 1 1
        = some (fillColor (scenario1 FillStyle.Bright) (1, 1, 1)))) :=
  ⟨⟨by norm_num, by norm_num⟩,
    C1_scenario1_amended FillStyle.Bright (1, 1, 1) 1 1 (by norm_num) (by norm_num)⟩
